import Mathlib

/-!
Verification of the SQL query front end (tokenizer and parser) of the
team-4 relational-database tool, as a shallow embedding in Lean 4.

Embedding conventions:
* Rust `VecDeque<char>` becomes `List Char`; the tokenizer and parser are
  explicit state-passing functions returning `Except QueryErr _`.
* Rust `f64` float literals are modelled as exact decimal rationals (`ℚ`):
  the lexer only ever parses strings of digits with at most one decimal
  point, whose exact value is a rational; binary rounding is not modelled.
* Rust `i64` is modelled as `ℤ` with the `i64::MAX` overflow check of
  `str::parse::<i64>` made explicit.
* Rust character classes (`is_whitespace`, `is_alphabetic`, `to_uppercase`)
  are modelled by their ASCII restrictions, which agree on every input
  exercised here.
* The recursive-descent parser and the comment-skipping tokenizer are given
  an explicit fuel parameter so that every definition is structurally
  recursive and kernel-computable; running out of fuel is a dedicated error
  that no sufficiently-fuelled run produces.
* The parser source (`parser.rs`) is written against a later iteration of
  the token enum than `lexer.rs`: it names the symbolic operators
  `OpEq, OpGt, ...` where the lexer iteration names them `Eq, Gt, ...`,
  and it matches keyword tokens (`If`, `Exists`, `Truncate`, `Restrict`,
  `Cascade`, `Add`, `Column`, `Rename`, `To`) that this lexer iteration
  never produces (it lexes those words as identifiers).  The embedding uses
  one `Token` type with the parser's names for the operators and includes
  the parser-only keyword constructors; the lexer, faithfully to
  `lexer.rs`, never emits them.
-/

namespace Team4

/-- Error taxonomy of `src/query/error.rs` (`QueryErr`), extended with
`outOfFuel`, the embedding-only marker for an exhausted recursion bound. -/
inductive QueryErr where
  | reservedKeyword
  | unexpectedEof
  | invalidNum (s : String)
  | unterminatedText
  | invalidIdent
  | invalidToken (c : Char)
  | unexpectedToken (expected : String) (found : String)
  | invalidExpr (s : String)
  | outOfFuel
  | unimplementedFeature
deriving DecidableEq, Repr

set_option maxHeartbeats 1600000 in
/-- Token model of `src/query/lexer.rs` (`Token`), with the parser
iteration's names for the symbolic operators (`opEq` is the lexer's `Eq`,
`opGt` its `Gt`, and so on) and with the keyword constructors that only
`parser.rs` mentions (`ifKw` through `to`). -/
inductive Token where
  | eof
  | null
  | bool (b : Bool)
  | int (n : ℤ)
  | float (q : ℚ)
  | text (s : String)
  | boolType
  | intType
  | floatType
  | textType
  | ident (s : String)
  | create
  | table
  | insert
  | into
  | values
  | select
  | fromKw
  | update
  | set
  | alter
  | delete
  | drop
  | union
  | whereKw
  | order
  | byKw
  | asc
  | desc
  | limit
  | distinct
  | dot
  | comma
  | semicolon
  | lparen
  | rparen
  | not
  | and
  | or
  | inKw
  | like
  | between
  | is
  | opEq
  | opGt
  | opLt
  | opGe
  | opLe
  | opAdd
  | opSub
  | opMul
  | opDiv
  | ifKw
  | existsKw
  | truncate
  | restrict
  | cascade
  | add
  | column
  | rename
  | to
deriving Repr

namespace Token

/-- Discriminant of a token: `std::mem::discriminant` compares which enum
variant a value is, ignoring any payload.  Each constructor gets a distinct
index. -/
def kindIdx : Token → Nat
  | .eof => 0
  | .null => 1
  | .bool _ => 2
  | .int _ => 3
  | .float _ => 4
  | .text _ => 5
  | .boolType => 6
  | .intType => 7
  | .floatType => 8
  | .textType => 9
  | .ident _ => 10
  | .create => 11
  | .table => 12
  | .insert => 13
  | .into => 14
  | .values => 15
  | .select => 16
  | .fromKw => 17
  | .update => 18
  | .set => 19
  | .alter => 20
  | .delete => 21
  | .drop => 22
  | .union => 23
  | .whereKw => 24
  | .order => 25
  | .byKw => 26
  | .asc => 27
  | .desc => 28
  | .limit => 29
  | .distinct => 30
  | .dot => 31
  | .comma => 32
  | .semicolon => 33
  | .lparen => 34
  | .rparen => 35
  | .not => 36
  | .and => 37
  | .or => 38
  | .inKw => 39
  | .like => 40
  | .between => 41
  | .is => 42
  | .opEq => 43
  | .opGt => 44
  | .opLt => 45
  | .opGe => 46
  | .opLe => 47
  | .opAdd => 48
  | .opSub => 49
  | .opMul => 50
  | .opDiv => 51
  | .ifKw => 52
  | .existsKw => 53
  | .truncate => 54
  | .restrict => 55
  | .cascade => 56
  | .add => 57
  | .column => 58
  | .rename => 59
  | .to => 60

/-- Rendering of `format!("\x7b:?\x7d", token)` (Rust `Debug` derive) as far
as the error messages need it.  Payload rendering of `float` and `text`
follows the embedding's types where Rust `Debug` differs; no proved
statement exercises those two cases. -/
def debugFmt : Token → String
  | .eof => "Eof"
  | .null => "Null"
  | .bool b => "Bool(" ++ (if b then "true" else "false") ++ ")"
  | .int n => "Int(" ++ toString n ++ ")"
  | .float q => "Float(" ++ toString q ++ ")"
  | .text s => "Text(" ++ toString s ++ ")"
  | .boolType => "BoolType"
  | .intType => "IntType"
  | .floatType => "FloatType"
  | .textType => "TextType"
  | .ident s => "Ident(" ++ toString s ++ ")"
  | .create => "Create"
  | .table => "Table"
  | .insert => "Insert"
  | .into => "Into"
  | .values => "Values"
  | .select => "Select"
  | .fromKw => "From"
  | .update => "Update"
  | .set => "Set"
  | .alter => "Alter"
  | .delete => "Delete"
  | .drop => "Drop"
  | .union => "Union"
  | .whereKw => "Where"
  | .order => "Order"
  | .byKw => "By"
  | .asc => "Asc"
  | .desc => "Desc"
  | .limit => "Limit"
  | .distinct => "Distinct"
  | .dot => "Dot"
  | .comma => "Comma"
  | .semicolon => "Semicolon"
  | .lparen => "LParen"
  | .rparen => "RParen"
  | .not => "Not"
  | .and => "And"
  | .or => "Or"
  | .inKw => "In"
  | .like => "Like"
  | .between => "Between"
  | .is => "Is"
  | .opEq => "OpEq"
  | .opGt => "OpGt"
  | .opLt => "OpLt"
  | .opGe => "OpGe"
  | .opLe => "OpLe"
  | .opAdd => "OpAdd"
  | .opSub => "OpSub"
  | .opMul => "OpMul"
  | .opDiv => "OpDiv"
  | .ifKw => "If"
  | .existsKw => "Exists"
  | .truncate => "Truncate"
  | .restrict => "Restrict"
  | .cascade => "Cascade"
  | .add => "Add"
  | .column => "Column"
  | .rename => "Rename"
  | .to => "To"

/-- Structural equality of tokens, the model of the derived `PartialEq`
that `==` comparisons in `parser.rs` use: same variant, and for the five
payload-carrying variants also equal payloads.  (Kept as a shallow `Bool`
function so every definition stays kernel-computable.) -/
def beq (a b : Token) : Bool :=
  a.kindIdx == b.kindIdx &&
    match a, b with
    | .bool x, .bool y => x == y
    | .int x, .int y => x == y
    | .float x, .float y => x == y
    | .text x, .text y => x == y
    | .ident x, .ident y => x == y
    | _, _ => true

end Token

/-- Letter class of `Lexer::is_letter`: alphabetic or underscore (ASCII
model of `char::is_alphabetic`). -/
def isLetter (c : Char) : Bool :=
  c.isAlpha || c = '_'

/-- Whitespace skipping of `Lexer::skip_ws`. -/
def skipWs : List Char → List Char
  | [] => []
  | c :: rest => if c.isWhitespace then skipWs rest else c :: rest

/-- Comment consumption of the `--` branch of `Lexer::next`: pop
characters until a newline has been popped or the input is exhausted. -/
def dropLine : List Char → List Char
  | [] => []
  | c :: rest => if c = '\n' then rest else dropLine rest

/-- Decimal accumulation over a digit run. -/
def digitsValAux (acc : ℕ) : List Char → Option ℕ
  | [] => some acc
  | c :: rest =>
    if c.isDigit then digitsValAux (acc * 10 + (c.toNat - Char.toNat '0')) rest
    else none

/-- Value of a non-empty all-digit character run; `none` on empty or
non-digit input, mirroring where `str::parse` fails structurally. -/
def digitsVal : List Char → Option ℕ
  | [] => none
  | cs => digitsValAux 0 cs

/-- Model of `out.parse::<i64>()` on the digit strings `lex_num` builds:
the decimal value, unless it exceeds `i64::MAX` (overflow is the one way
such a parse fails). -/
def parseI64 (s : String) : Option ℤ :=
  match digitsVal s.toList with
  | none => none
  | some n => if n ≤ 9223372036854775807 then some (n : ℤ) else none

/-- Split a character run at its first decimal point, when present. -/
def splitAtDot : List Char → List Char × Option (List Char)
  | [] => ([], none)
  | c :: rest =>
    if c = '.' then ([], some rest)
    else
      let (pre, post) := splitAtDot rest
      (c :: pre, post)

/-- Model of `out.parse::<f64>()` on the numeric strings `lex_num` builds
(digits containing at most one decimal point, never starting or — after
the synthetic-`0` append — ending with it): the exact decimal rational
`n + f / 10 ^ k`, built with `mkRat` to stay kernel-computable. -/
def parseF64 (s : String) : Option ℚ :=
  match splitAtDot s.toList with
  | (intPart, none) => (digitsVal intPart).map (fun n => mkRat (n : ℤ) 1)
  | (intPart, some fracPart) =>
    match digitsVal intPart, digitsVal fracPart with
    | some n, some f =>
      some (mkRat ((n * 10 ^ fracPart.length + f : ℕ) : ℤ) (10 ^ fracPart.length))
    | _, _ => none

/-- Upper-casing of `str::to_uppercase` (ASCII model), written over the
character list so that it is kernel-computable. -/
def strToUpper (s : String) : String :=
  ⟨s.data.map Char.toUpper⟩

/-- Kernel-computable model of `out.ends_with('.')`. -/
def endsWithDot (s : String) : Bool :=
  s.data.getLast? = some '.'

/-- Loop body of `Lexer::lex_text`: consume characters after the opening
quote, processing backslash escapes, until the matching quote; input
exhaustion (also right after a backslash) is the unterminated-literal
failure. -/
def lexText (quote : Char) (out : String) : List Char → Except QueryErr (Token × List Char)
  | [] => .error .unterminatedText
  | c :: rest =>
    if c = quote then .ok (.text out, rest)
    else if c = '\\' then
      match rest with
      | [] => .error .unterminatedText
      | esc :: rest' =>
        let out' :=
          if esc = '\\' then out.push '\\'
          else if esc = '\'' then out.push '\''
          else if esc = '"' then out.push '"'
          else if esc = 'n' then out.push '\n'
          else if esc = 'r' then out.push '\r'
          else if esc = 't' then out.push '\t'
          else (out.push c).push esc
        lexText quote out' rest'
    else lexText quote (out.push c) rest

/-- Loop of `Lexer::lex_num`: extend the literal while digits follow, or a
first decimal point; return the literal text, the float flag and the rest
of the queue. -/
def takeNum (float : Bool) (out : String) : List Char → String × Bool × List Char
  | [] => (out, float, [])
  | c :: rest =>
    if c.isDigit then takeNum float (out.push c) rest
    else if c = '.' ∧ float = false then takeNum true (out.push c) rest
    else (out, float, c :: rest)

/-- `Lexer::lex_num`, given the leading digit already consumed: a decimal
point selects the float kind, a literal ending in `.` gets a synthetic `0`
appended before numeric parsing. -/
def lexNum (start : Char) (src : List Char) : Except QueryErr (Token × List Char) :=
  match takeNum false (String.singleton start) src with
  | (out, float, rest) =>
    if out.data.isEmpty then .error (.invalidNum out)
    else if float then
      let out := if endsWithDot out then out.push '0' else out
      match parseF64 out with
      | some q => .ok (.float q, rest)
      | none => .error (.invalidNum out)
    else
      match parseI64 out with
      | some n => .ok (.int n, rest)
      | none => .error (.invalidNum out)

/-- Loop of `Lexer::lex_keyword`: extend the word while letters or digits
follow. -/
def takeWord (out : String) : List Char → String × List Char
  | [] => (out, [])
  | c :: rest =>
    if isLetter c || c.isDigit then takeWord (out.push c) rest
    else (out, c :: rest)

/-- Keyword table of `Lexer::lex_keyword`: the collected word, upper-cased,
against the fixed table; no match falls back to an identifier carrying the
original-case text. -/
def keywordToken (out : String) : Token :=
  match strToUpper out with
  | "NULL" => .null
  | "TRUE" => .bool true
  | "FALSE" => .bool false
  | "BOOL" | "BOOLEAN" => .boolType
  | "INT" | "INTEGER" => .intType
  | "FLOAT" | "DOUBLE" => .floatType
  | "TEXT" | "STRING" | "VARCHAR" => .textType
  | "CREATE" => .create
  | "TABLE" => .table
  | "INSERT" => .insert
  | "INTO" => .into
  | "VALUES" => .values
  | "SELECT" => .select
  | "FROM" => .fromKw
  | "UPDATE" => .update
  | "SET" => .set
  | "ALTER" => .alter
  | "DELETE" => .delete
  | "DROP" => .drop
  | "UNION" => .union
  | "WHERE" => .whereKw
  | "ORDER" => .order
  | "BY" => .byKw
  | "ASC" => .asc
  | "DESC" => .desc
  | "LIMIT" => .limit
  | "DISTINCT" => .distinct
  | "NOT" => .not
  | "AND" => .and
  | "OR" => .or
  | "IN" => .inKw
  | "LIKE" => .like
  | "BETWEEN" => .between
  | "IS" => .is
  | _ => .ident out

/-- `Lexer::lex_keyword`, given the leading letter already consumed. -/
def lexKeyword (start : Char) (src : List Char) : Except QueryErr (Token × List Char) :=
  match takeWord (String.singleton start) src with
  | (out, rest) => .ok (keywordToken out, rest)

/-- `Lexer::next` with an explicit fuel bound for the comment-skipping
recursion.  Each recursive call strictly shrinks the character queue, so
the fuel `src.length + 1` used by `Lexer.next` never runs out. -/
def lexNextF : ℕ → List Char → Except QueryErr (Token × List Char)
  | 0, _ => .error .outOfFuel
  | fuel + 1, src =>
    match skipWs src with
    | [] => .ok (.eof, [])
    | '-' :: '-' :: rest => lexNextF fuel (dropLine rest)
    | c :: rest =>
      if c = '.' then .ok (.dot, rest)
      else if c = ',' then .ok (.comma, rest)
      else if c = ';' then .ok (.semicolon, rest)
      else if c = '(' then .ok (.lparen, rest)
      else if c = ')' then .ok (.rparen, rest)
      else if c = '=' then .ok (.opEq, rest)
      else if c = '>' then
        match rest with
        | '=' :: rest' => .ok (.opGe, rest')
        | _ => .ok (.opGt, rest)
      else if c = '<' then
        match rest with
        | '=' :: rest' => .ok (.opLe, rest')
        | _ => .ok (.opLt, rest)
      else if c = '+' then .ok (.opAdd, rest)
      else if c = '-' then .ok (.opSub, rest)
      else if c = '*' then .ok (.opMul, rest)
      else if c = '/' then .ok (.opDiv, rest)
      else if c = '\'' ∨ c = '"' then lexText c "" rest
      else if c.isDigit then lexNum c rest
      else if isLetter c then lexKeyword c rest
      else .error (.invalidToken c)

/-- `Lexer::next`: the character queue is the whole lexer state. -/
def Lexer.next (src : List Char) : Except QueryErr (Token × List Char) :=
  lexNextF (src.length + 1) src

/-- Expression AST of `parser.rs` (`Expr`). -/
inductive Expr where
  | null
  | bool (b : Bool)
  | int (n : ℤ)
  | float (q : ℚ)
  | text (s : String)
  | ident (s : String)
  | unary (op : Token) (right : Expr)
  | binary (op : Token) (left : Expr) (right : Expr)
deriving Repr

/-- Statement AST of `parser.rs` (`Stmt`), fields in source order. -/
inductive Stmt where
  | create (table : String) (columns : List (String × String)) (ifNotExists : Bool)
  | insertValues (table : String) (columns : List String) (values : List (List Expr))
  | select (table : String) (columns : List Expr) (distinct : Bool)
      (whereClause : Option Expr) (groupBy : Option (List Expr))
      (having : Option Expr) (orderBy : Option (List (Expr × Bool)))
      (limit : Option ℕ)
  | update (table : String) (assigns : List (String × Expr)) (whereClause : Option Expr)
  | alterAdd (table : String) (col : String × String)
  | alterDrop (table : String) (col : String)
  | alterRename (table : String) (newName : String)
  | delete (table : String) (whereClause : Option Expr)
  | truncate (table : String)
  | drop (table : String) (ifExists : Bool) (cascade : Bool)
deriving Repr

/-- Parser state of `Parser`: the owned lexer queue plus the current token
and one token of lookahead. -/
structure PState where
  lexer : List Char
  curr : Token
  peek : Token
deriving Repr

/-- Binding-power table `Parser::precedence` (`u8` modelled as `ℕ`). -/
def precedence : Token → ℕ
  | .or => 1
  | .and => 2
  | .opEq => 3
  | .opGt | .opLt | .opGe | .opLe => 4
  | .opAdd | .opSub => 5
  | .opMul | .opDiv => 6
  | .lparen => 7
  | _ => 0

/-- `Parser::next`: return the current token, shift the lookahead into its
place, pull one fresh token from the lexer (whose failure propagates). -/
def pnext (st : PState) : Except QueryErr (Token × PState) :=
  match Lexer.next st.lexer with
  | .error e => .error e
  | .ok (t, lx) => .ok (st.curr, ⟨lx, st.peek, t⟩)

/-- `Parser::new`: construction eagerly pulls two tokens. -/
def Parser.new (src : List Char) : Except QueryErr PState :=
  match Lexer.next src with
  | .error e => .error e
  | .ok (curr, lx) =>
    match Lexer.next lx with
    | .error e => .error e
    | .ok (peek, lx') => .ok ⟨lx', curr, peek⟩

/-- `Parser::expect`: consume each expected token in order while its kind
(discriminant) matches the current token's, else fail with the
expected/found mismatch. -/
def expect : List Token → PState → Except QueryErr PState
  | [], st => .ok st
  | t :: rest, st =>
    if st.curr.kindIdx = t.kindIdx then
      match pnext st with
      | .error e => .error e
      | .ok (_, st') => expect rest st'
    else .error (.unexpectedToken t.debugFmt st.curr.debugFmt)

/-- `Parser::maybe`: probe the first expected kind only; on a match run
`expect` over the whole sequence, otherwise consume nothing and report
`false`. -/
def maybe (tokens : List Token) (st : PState) : Except QueryErr (Bool × PState) :=
  match tokens with
  | [] => .ok (true, st)
  | t :: _ =>
    if st.curr.kindIdx ≠ t.kindIdx then .ok (false, st)
    else
      match expect tokens st with
      | .error e => .error e
      | .ok st' => .ok (true, st')

/-- `Parser::consume_ident`. -/
def consumeIdent (st : PState) : Except QueryErr (String × PState) :=
  match pnext st with
  | .error e => .error e
  | .ok (t, st') =>
    match t with
    | .ident name => .ok (name, st')
    | tok => .error (.unexpectedToken "identifier" tok.debugFmt)

/-- `Parser::consume_type`: normalize each type token to its canonical
name. -/
def consumeType (st : PState) : Except QueryErr (String × PState) :=
  match pnext st with
  | .error e => .error e
  | .ok (t, st') =>
    match t with
    | .boolType => .ok ("BOOLEAN", st')
    | .intType => .ok ("INTEGER", st')
    | .floatType => .ok ("FLOAT", st')
    | .textType => .ok ("TEXT", st')
    | tok => .error (.unexpectedToken "type" tok.debugFmt)

mutual

/-- `Parser::parse_expr`: precedence climbing — parse a unary/leaf operand,
then extend it while the current token binds tighter than `prec`. -/
def parseExpr (fuel : ℕ) (prec : ℕ) (st : PState) : Except QueryErr (Expr × PState) :=
  match fuel with
  | 0 => .error .outOfFuel
  | fuel + 1 =>
    match parseUnary fuel st with
    | .error e => .error e
    | .ok (left, st') => parseBinLoop fuel prec left st'

/-- While-loop of `Parser::parse_expr`: fold `parse_binary` onto the left
operand while the current token's binding power exceeds `prec`. -/
def parseBinLoop (fuel : ℕ) (prec : ℕ) (left : Expr) (st : PState) :
    Except QueryErr (Expr × PState) :=
  match fuel with
  | 0 => .error .outOfFuel
  | fuel + 1 =>
    if prec < precedence st.curr then
      match parseBinary fuel left st with
      | .error e => .error e
      | .ok (left', st') => parseBinLoop fuel prec left' st'
    else .ok (left, st)

/-- `Parser::parse_unary`: leaf productions, the two unary operators (which
recurse at level 7), and parenthesized groups. -/
def parseUnary (fuel : ℕ) (st : PState) : Except QueryErr (Expr × PState) :=
  match fuel with
  | 0 => .error .outOfFuel
  | fuel + 1 =>
    match pnext st with
    | .error e => .error e
    | .ok (t, st') =>
      match t with
      | .null => .ok (.null, st')
      | .bool b => .ok (.bool b, st')
      | .int n => .ok (.int n, st')
      | .float q => .ok (.float q, st')
      | .text s => .ok (.text s, st')
      | .ident i => .ok (.ident i, st')
      | .not =>
        match parseExpr fuel 7 st' with
        | .error e => .error e
        | .ok (right, st'') => .ok (.unary .not right, st'')
      | .opSub =>
        match parseExpr fuel 7 st' with
        | .error e => .error e
        | .ok (right, st'') => .ok (.unary .opSub right, st'')
      | .lparen => parseGroup fuel st'
      | tok =>
        .error (.unexpectedToken "expression (literal, identifier, or \x27(\x27)" tok.debugFmt)

/-- `Parser::parse_group`: a parenthesized sub-expression re-parsed at
binding power 0, closed by `)`. -/
def parseGroup (fuel : ℕ) (st : PState) : Except QueryErr (Expr × PState) :=
  match fuel with
  | 0 => .error .outOfFuel
  | fuel + 1 =>
    match parseExpr fuel 0 st with
    | .error e => .error e
    | .ok (e, st') =>
      match expect [.rparen] st' with
      | .error er => .error er
      | .ok st'' => .ok (e, st'')

/-- `Parser::parse_binary`: consume the operator token; any token of
positive binding power is accepted as the operator and the right operand
is parsed at that power. -/
def parseBinary (fuel : ℕ) (left : Expr) (st : PState) :
    Except QueryErr (Expr × PState) :=
  match fuel with
  | 0 => .error .outOfFuel
  | fuel + 1 =>
    match pnext st with
    | .error e => .error e
    | .ok (token, st') =>
      if 0 < precedence token then
        match parseExpr fuel (precedence token) st' with
        | .error e => .error e
        | .ok (right, st'') => .ok (.binary token left right, st'')
      else .error (.unexpectedToken "binary operator" token.debugFmt)

end

/-- Comma-separated item loop of `Parser::parse_list_clause`. -/
def parseListLoop {α : Type} (f : PState → Except QueryErr (α × PState)) :
    ℕ → PState → Except QueryErr (List α × PState)
  | 0, _ => .error .outOfFuel
  | fuel + 1, st =>
    match f st with
    | .error e => .error e
    | .ok (x, st') =>
      match maybe [.comma] st' with
      | .error e => .error e
      | .ok (true, st'') =>
        match parseListLoop f fuel st'' with
        | .error e => .error e
        | .ok (xs, st''') => .ok (x :: xs, st''')
      | .ok (false, st'') => .ok ([x], st'')

/-- `Parser::parse_list_clause`: an optionally parenthesized,
comma-separated list of items. -/
def parseListClause {α : Type} (fuel : ℕ) (withParens : Bool)
    (f : PState → Except QueryErr (α × PState)) (st : PState) :
    Except QueryErr (List α × PState) :=
  match (if withParens then expect [.lparen] st else .ok st) with
  | .error e => .error e
  | .ok st' =>
    match parseListLoop f fuel st' with
    | .error e => .error e
    | .ok (items, st'') =>
      match (if withParens then expect [.rparen] st'' else .ok st'') with
      | .error e => .error e
      | .ok st''' => .ok (items, st''')

/-- `Parser::parse_create`. -/
def parseCreate (fuel : ℕ) (st : PState) : Except QueryErr (Stmt × PState) :=
  match expect [.create, .table] st with
  | .error e => .error e
  | .ok st =>
    match maybe [.ifKw, .not, .existsKw] st with
    | .error e => .error e
    | .ok (ifNotExists, st) =>
      match consumeIdent st with
      | .error e => .error e
      | .ok (table, st) =>
        match parseListClause fuel true (fun st =>
            match consumeIdent st with
            | .error e => .error e
            | .ok (colName, st) =>
              match consumeType st with
              | .error e => .error e
              | .ok (colType, st) => .ok ((colName, colType), st)) st with
        | .error e => .error e
        | .ok (columns, st) => .ok (.create table columns ifNotExists, st)

/-- `Parser::parse_insert_values`. -/
def parseInsertValues (fuel : ℕ) (table : String) (columns : List String)
    (st : PState) : Except QueryErr (Stmt × PState) :=
  match parseListClause fuel false
      (fun st => parseListClause fuel true (fun st => parseExpr fuel 0 st) st) st with
  | .error e => .error e
  | .ok (vals, st) => .ok (.insertValues table columns vals, st)

/-- `Parser::parse_insert`; the `INSERT ... SELECT` arm is the source's
`unimplemented!` panic, modelled as a dedicated error. -/
def parseInsert (fuel : ℕ) (st : PState) : Except QueryErr (Stmt × PState) :=
  match expect [.insert, .into] st with
  | .error e => .error e
  | .ok st =>
    match consumeIdent st with
    | .error e => .error e
    | .ok (table, st) =>
      match (if Token.beq st.curr .lparen then parseListClause fuel true consumeIdent st
             else .ok ([], st)) with
      | .error e => .error e
      | .ok (columns, st) =>
        match maybe [.values] st with
        | .error e => .error e
        | .ok (true, st) => parseInsertValues fuel table columns st
        | .ok (false, st) =>
          match maybe [.select] st with
          | .error e => .error e
          | .ok (true, _) => .error .unimplementedFeature
          | .ok (false, st) =>
            .error (.unexpectedToken "VALUES or SELECT" st.curr.debugFmt)

/-- `Parser::parse_select`: the WHERE-class clauses are left unpopulated
(a `TODO` in the source). -/
def parseSelect (fuel : ℕ) (st : PState) : Except QueryErr (Stmt × PState) :=
  match expect [.select] st with
  | .error e => .error e
  | .ok st =>
    match maybe [.distinct] st with
    | .error e => .error e
    | .ok (distinct, st) =>
      match maybe [.opMul] st with
      | .error e => .error e
      | .ok (star, st) =>
        match (if star then .ok ([], st)
               else parseListClause fuel false (fun st => parseExpr fuel 0 st) st) with
        | .error e => .error e
        | .ok (columns, st) =>
          match expect [.fromKw] st with
          | .error e => .error e
          | .ok st =>
            match consumeIdent st with
            | .error e => .error e
            | .ok (table, st) =>
              .ok (.select table columns distinct none none none none none, st)

/-- `Parser::parse_update`: the WHERE clause is left unpopulated (a `TODO`
in the source). -/
def parseUpdate (fuel : ℕ) (st : PState) : Except QueryErr (Stmt × PState) :=
  match expect [.update] st with
  | .error e => .error e
  | .ok st =>
    match consumeIdent st with
    | .error e => .error e
    | .ok (table, st) =>
      match expect [.set] st with
      | .error e => .error e
      | .ok st =>
        match parseListClause fuel false (fun st =>
            match consumeIdent st with
            | .error e => .error e
            | .ok (colName, st) =>
              match expect [.opEq] st with
              | .error e => .error e
              | .ok st =>
                match parseExpr fuel 0 st with
                | .error e => .error e
                | .ok (valExpr, st) => .ok ((colName, valExpr), st)) st with
        | .error e => .error e
        | .ok (assigns, st) => .ok (.update table assigns none, st)

/-- `Parser::parse_alter_add`. -/
def parseAlterAdd (table : String) (st : PState) :
    Except QueryErr (Stmt × PState) :=
  match consumeIdent st with
  | .error e => .error e
  | .ok (colName, st) =>
    match consumeType st with
    | .error e => .error e
    | .ok (colType, st) => .ok (.alterAdd table (colName, colType), st)

/-- `Parser::parse_alter_drop`. -/
def parseAlterDrop (table : String) (st : PState) :
    Except QueryErr (Stmt × PState) :=
  match consumeIdent st with
  | .error e => .error e
  | .ok (col, st) => .ok (.alterDrop table col, st)

/-- `Parser::parse_alter_rename`. -/
def parseAlterRename (table : String) (st : PState) :
    Except QueryErr (Stmt × PState) :=
  match consumeIdent st with
  | .error e => .error e
  | .ok (newName, st) => .ok (.alterRename table newName, st)

/-- `Parser::parse_alter`. -/
def parseAlter (st : PState) : Except QueryErr (Stmt × PState) :=
  match expect [.alter, .table] st with
  | .error e => .error e
  | .ok st =>
    match consumeIdent st with
    | .error e => .error e
    | .ok (table, st) =>
      match maybe [.add, .column] st with
      | .error e => .error e
      | .ok (true, st) => parseAlterAdd table st
      | .ok (false, st) =>
        match maybe [.drop, .column] st with
        | .error e => .error e
        | .ok (true, st) => parseAlterDrop table st
        | .ok (false, st) =>
          match maybe [.rename, .to] st with
          | .error e => .error e
          | .ok (true, st) => parseAlterRename table st
          | .ok (false, st) =>
            .error (.unexpectedToken "ADD, DROP, or RENAME" st.curr.debugFmt)

/-- `Parser::parse_delete`: consumes only `DELETE FROM <ident>`; the WHERE
clause is left unpopulated (a `TODO` in the source). -/
def parseDelete (st : PState) : Except QueryErr (Stmt × PState) :=
  match expect [.delete, .fromKw] st with
  | .error e => .error e
  | .ok st =>
    match consumeIdent st with
    | .error e => .error e
    | .ok (table, st) => .ok (.delete table none, st)

/-- `Parser::parse_truncate`. -/
def parseTruncate (st : PState) : Except QueryErr (Stmt × PState) :=
  match expect [.truncate, .table] st with
  | .error e => .error e
  | .ok st =>
    match consumeIdent st with
    | .error e => .error e
    | .ok (table, st) => .ok (.truncate table, st)

/-- `Parser::parse_drop`; `&&` short-circuits, so a present `RESTRICT`
suppresses the `CASCADE` probe. -/
def parseDrop (st : PState) : Except QueryErr (Stmt × PState) :=
  match expect [.drop, .table] st with
  | .error e => .error e
  | .ok st =>
    match maybe [.ifKw, .existsKw] st with
    | .error e => .error e
    | .ok (ifExists, st) =>
      match consumeIdent st with
      | .error e => .error e
      | .ok (table, st) =>
        match maybe [.restrict] st with
        | .error e => .error e
        | .ok (true, st) => .ok (.drop table ifExists false, st)
        | .ok (false, st) =>
          match maybe [.cascade] st with
          | .error e => .error e
          | .ok (cascade, st) => .ok (.drop table ifExists cascade, st)

/-- `Parser::parse_stmt`: dispatch on the current token's keyword. -/
def parseStmt (fuel : ℕ) (st : PState) : Except QueryErr (Stmt × PState) :=
  match st.curr with
  | .create => parseCreate fuel st
  | .insert => parseInsert fuel st
  | .select => parseSelect fuel st
  | .update => parseUpdate fuel st
  | .alter => parseAlter st
  | .delete => parseDelete st
  | .truncate => parseTruncate st
  | .drop => parseDrop st
  | tok => .error (.unexpectedToken "SELECT, INSERT, UPDATE, DELETE, CREATE, DROP" tok.debugFmt)

/-- `Parser::parse_block`: statements until a terminator kind, skipping
bare semicolons. -/
def parseBlock (fuel : ℕ) (terms : List Token) (st : PState) :
    Except QueryErr (List Stmt × PState) :=
  match fuel with
  | 0 => .error .outOfFuel
  | fuel + 1 =>
    if terms.any (fun t => t.kindIdx == st.curr.kindIdx) then .ok ([], st)
    else if Token.beq st.curr .semicolon then
      match pnext st with
      | .error e => .error e
      | .ok (_, st') => parseBlock fuel terms st'
    else
      match parseStmt fuel st with
      | .error e => .error e
      | .ok (stmt, st') =>
        match parseBlock fuel terms st' with
        | .error e => .error e
        | .ok (stmts, st'') => .ok (stmt :: stmts, st'')

/-- `Parser::parse`: a whole source block terminated by the end marker. -/
def Parser.parse (fuel : ℕ) (st : PState) : Except QueryErr (List Stmt × PState) :=
  parseBlock fuel [.eof] st

/-- Full pipeline: build a parser over the source text and run
`Parser::parse`.  The fuel `src.length + 16` is ample, since every
recursion step consumes input. -/
def parseSQL (src : String) : Except QueryErr (List Stmt) :=
  match Parser.new src.toList with
  | .error e => .error e
  | .ok st =>
    match Parser.parse (src.toList.length + 16) st with
    | .error e => .error e
    | .ok (stmts, _) => .ok stmts

/-- Run the expression grammar alone over the source text, at binding
power 0, as `Parser::parse_expr(0)` does wherever statements need an
expression. -/
def parseExprSQL (src : String) : Except QueryErr Expr :=
  match Parser.new src.toList with
  | .error e => .error e
  | .ok st =>
    match parseExpr (src.toList.length + 16) 0 st with
    | .error e => .error e
    | .ok (e, _) => .ok e

/-- The eleven binary operators the specification names for `Binary`
nodes. -/
def elevenBinOps : List Token :=
  [.or, .and, .opEq, .opGt, .opLt, .opGe, .opLe, .opAdd, .opSub, .opMul, .opDiv]

/-- The tokens `Parser::precedence` assigns positive binding power: the
eleven binary operators plus the parenthesis token (power 7). -/
def binOpTokens : List Token :=
  [.or, .and, .opEq, .opGt, .opLt, .opGe, .opLe, .opAdd, .opSub, .opMul, .opDiv, .lparen]

/-- Every `binary` node's operator in the tree is drawn from
`binOpTokens`. -/
def BinOpsOK : Expr → Prop
  | .unary _ right => BinOpsOK right
  | .binary op left right => op ∈ binOpTokens ∧ BinOpsOK left ∧ BinOpsOK right
  | _ => True

/-- Drive the tokenizer `n + 1` times from a given state, returning the
last result (failures propagate). -/
def lexIterate : ℕ → List Char → Except QueryErr (Token × List Char)
  | 0, src => Lexer.next src
  | n + 1, src =>
    match Lexer.next src with
    | .error e => .error e
    | .ok (_, src') => lexIterate n src'

/-- Claim C1 (counterexample): parsing `DELETE FROM t WHERE x;` does not
succeed.  `parse_delete` never consumes a WHERE clause, so the statement
loop next dispatches on the unconsumed `WHERE` and fails — refuting the
claim that the parse succeeds with the where-expression present. -/
theorem C1_counterexample :
    parseSQL "DELETE FROM t WHERE x;" =
      .error (.unexpectedToken "SELECT, INSERT, UPDATE, DELETE, CREATE, DROP" "Where") := by
  rfl

/-- Claim C1 (amended): `DELETE FROM t;` parses to a Delete statement with
table name `t` and the where-expression absent, and every successful
`parse_delete` returns a Delete statement with the where-expression
absent. -/
theorem C1_amended :
    parseSQL "DELETE FROM t;" = .ok [.delete "t" none] ∧
    ∀ st s st', parseDelete st = .ok (s, st') → ∃ tbl, s = .delete tbl none := by
  constructor
  · rfl
  · intro st s st' h
    unfold parseDelete at h
    split at h
    · simp at h
    · split at h
      · simp at h
      · simp only [Except.ok.injEq, Prod.mk.injEq] at h
        exact ⟨_, h.1.symm⟩

/-- Witness for the amended C1 theorem at a concrete parser state. -/
theorem C1_amended_witness :
    ∃ tbl, Stmt.delete "t" none = Stmt.delete tbl none :=
  C1_amended.2 ⟨"t".toList, .delete, .fromKw⟩ (.delete "t" none) ⟨[], .eof, .eof⟩
    (by rfl)

/-- Claim C2 (counterexample): `SELECT 1 (2 FROM t` parses successfully to
a statement whose column expression is a Binary node with the parenthesis
token as its operator — and the parenthesis token is not one of the eleven
binary operators. -/
theorem C2_counterexample :
    parseSQL "SELECT 1 (2 FROM t" =
      .ok [.select "t" [.binary .lparen (.int 1) (.int 2)] false
             none none none none none] ∧
    Token.lparen ∉ elevenBinOps :=
  ⟨by rfl, by simp [elevenBinOps]⟩

/-- A token has positive binding power exactly when it is one of the
twelve tokens of `binOpTokens`. -/
theorem precedence_pos_iff (t : Token) : 0 < precedence t ↔ t ∈ binOpTokens := by
  cases t <;> simp [precedence, binOpTokens]

/-- Invariant of the expression parser, by induction on the fuel: every
successfully produced expression has all its Binary operators drawn from
`binOpTokens`, and `parse_expr` stops at a token whose binding power does
not exceed the entry precedence. -/
theorem parseExpr_ok_inv : ∀ fuel : ℕ,
    (∀ prec st e st', parseExpr fuel prec st = .ok (e, st') →
      BinOpsOK e ∧ precedence st'.curr ≤ prec) ∧
    (∀ prec left st e st', BinOpsOK left →
      parseBinLoop fuel prec left st = .ok (e, st') →
      BinOpsOK e ∧ precedence st'.curr ≤ prec) ∧
    (∀ st e st', parseUnary fuel st = .ok (e, st') → BinOpsOK e) ∧
    (∀ st e st', parseGroup fuel st = .ok (e, st') → BinOpsOK e) ∧
    (∀ left st e st', BinOpsOK left → parseBinary fuel left st = .ok (e, st') →
      BinOpsOK e) := by
  intro fuel
  induction fuel with
  | zero =>
    refine ⟨?_, ?_, ?_, ?_, ?_⟩
    · intro prec st e st' h; simp [parseExpr] at h
    · intro prec left st e st' _ h; simp [parseBinLoop] at h
    · intro st e st' h; simp [parseUnary] at h
    · intro st e st' h; simp [parseGroup] at h
    · intro left st e st' _ h; simp [parseBinary] at h
  | succ fuel ih =>
    obtain ⟨ihE, ihL, ihU, ihG, ihB⟩ := ih
    refine ⟨?_, ?_, ?_, ?_, ?_⟩
    · intro prec st e st' h
      simp only [parseExpr] at h
      split at h
      · simp at h
      · rename_i left st₁ hu
        exact ihL prec left st₁ e st' (ihU st left st₁ hu) h
    · intro prec left st e st' hbl h
      simp only [parseBinLoop] at h
      split at h
      · split at h
        · simp at h
        · rename_i left' st₁ hb
          exact ihL prec left' st₁ e st' (ihB left st left' st₁ hbl hb) h
      · rename_i hnlt
        simp only [Except.ok.injEq, Prod.mk.injEq] at h
        obtain ⟨rfl, rfl⟩ := h
        exact ⟨hbl, Nat.not_lt.mp hnlt⟩
    · intro st e st' h
      simp only [parseUnary] at h
      split at h
      · simp at h
      · rename_i t st₁ hpn
        split at h
        all_goals
          try (simp only [Except.ok.injEq, Prod.mk.injEq] at h
               obtain ⟨rfl, rfl⟩ := h
               simp [BinOpsOK])
        · split at h
          · simp at h
          · rename_i right st₂ hr
            simp only [Except.ok.injEq, Prod.mk.injEq] at h
            obtain ⟨rfl, rfl⟩ := h
            simpa [BinOpsOK] using (ihE 7 st₁ right st₂ hr).1
        · split at h
          · simp at h
          · rename_i right st₂ hr
            simp only [Except.ok.injEq, Prod.mk.injEq] at h
            obtain ⟨rfl, rfl⟩ := h
            simpa [BinOpsOK] using (ihE 7 st₁ right st₂ hr).1
        · exact ihG st₁ e st' h
        · simp at h
    · intro st e st' h
      simp only [parseGroup] at h
      split at h
      · simp at h
      · rename_i e₁ st₁ he
        split at h
        · simp at h
        · rename_i st₂ hx
          simp only [Except.ok.injEq, Prod.mk.injEq] at h
          obtain ⟨rfl, rfl⟩ := h
          exact (ihE 0 st e₁ st₁ he).1
    · intro left st e st' hbl h
      simp only [parseBinary] at h
      split at h
      · simp at h
      · rename_i tok st₁ hpn
        split at h
        · rename_i hpos
          split at h
          · simp at h
          · rename_i right st₂ hr
            simp only [Except.ok.injEq, Prod.mk.injEq] at h
            obtain ⟨rfl, rfl⟩ := h
            simp only [BinOpsOK]
            exact ⟨(precedence_pos_iff tok).mp hpos, hbl,
              (ihE (precedence tok) st₁ right st₂ hr).1⟩
        · simp at h

/-- Claim C2 (amended): every expression the parser successfully builds
has each Binary operator drawn from the twelve positive-binding-power
tokens — the eleven named operators plus the parenthesis token — and the
parse stops at (without consuming) any token whose binding power does not
exceed the entry precedence. -/
theorem C2_amended (fuel prec : ℕ) (st : PState) (e : Expr) (st' : PState)
    (h : parseExpr fuel prec st = .ok (e, st')) :
    BinOpsOK e ∧ precedence st'.curr ≤ prec :=
  (parseExpr_ok_inv fuel).1 prec st e st' h

/-- Witness for the amended C2 theorem at a one-literal expression. -/
theorem C2_amended_witness :
    BinOpsOK (.int 1) ∧ precedence (PState.mk [] .eof .eof).curr ≤ 0 :=
  C2_amended 16 0 ⟨[], .int 1, .eof⟩ (.int 1) ⟨[], .eof, .eof⟩ (by rfl)

/-- Claim C3 (counterexample): `maybe` can return an error, refuting the
claim that it never does.  With current token `(`, lookahead `Int(1)` and
expected kinds `[(, )]`, the head kind matches, so `expect` consumes `(`
and then fails on the second kind. -/
theorem C3_counterexample :
    maybe [.lparen, .rparen] ⟨[], .lparen, .int 1⟩ =
      .error (.unexpectedToken "RParen" "Int(1)") := by
  rfl

/-- Claim C3 (amended): for a non-empty expected sequence, `maybe` returns
`false` only when the first kind mismatches, consuming nothing; when it
returns `true` it has run `expect` over the whole sequence.  When the
first kind matches but a later step fails, the `expect` error propagates
out of `maybe` (after consuming a proper prefix). -/
theorem C3_amended (t : Token) (rest : List Token) (st : PState) :
    (∀ st', maybe (t :: rest) st = .ok (false, st') →
      st' = st ∧ st.curr.kindIdx ≠ t.kindIdx) ∧
    (∀ st', maybe (t :: rest) st = .ok (true, st') →
      expect (t :: rest) st = .ok st') := by
  constructor
  · intro st' h
    simp only [maybe] at h
    split at h
    · rename_i hne
      simp only [Except.ok.injEq, Prod.mk.injEq] at h
      exact ⟨h.2.symm, hne⟩
    · split at h
      · simp at h
      · simp at h
  · intro st' h
    simp only [maybe] at h
    split at h
    · simp at h
    · split at h
      · simp at h
      · rename_i st₁ hx
        simp only [Except.ok.injEq, Prod.mk.injEq] at h
        rw [hx, h.2]

/-- Witness for the amended C3 theorem at a concrete parser state. -/
theorem C3_amended_witness :
    (⟨[], .comma, .eof⟩ : PState) = ⟨[], .comma, .eof⟩ ∧
      (Token.comma).kindIdx ≠ (Token.semicolon).kindIdx :=
  (C3_amended .semicolon [] ⟨[], .comma, .eof⟩).1 ⟨[], .comma, .eof⟩ (by rfl)

/-- Claim C4: `1 + 2 * 3` parses to Binary(+, Int 1, Binary(*, Int 2,
Int 3)) — multiplication binds tighter than addition. -/
theorem C4_precedence :
    parseExprSQL "1 + 2 * 3" =
      .ok (.binary .opAdd (.int 1) (.binary .opMul (.int 2) (.int 3))) := by
  rfl

/-- Claim C5: numeric canonicalization — `3.` and `3.0` both lex to the
float of value 3 (`mkRat 3 1`, the exact-rational model of the f64 3.0),
`3` lexes to Int 3, and `1.2.3` lexes to the float of value 6/5 (= 1.2),
then `.`, then Int 3. -/
theorem C5_numeric :
    Lexer.next "3.".toList = .ok (.float (mkRat 3 1), []) ∧
    Lexer.next "3.0".toList = .ok (.float (mkRat 3 1), []) ∧
    Lexer.next "3".toList = .ok (.int 3, []) ∧
    Lexer.next "1.2.3".toList = .ok (.float (mkRat 6 5), ".3".toList) ∧
    Lexer.next ".3".toList = .ok (.dot, "3".toList) :=
  ⟨by rfl, by rfl, by rfl, by rfl, by rfl⟩

/-- Claim C6: `CREATE TABLE t (a INT, b TEXT);` parses to the Create
statement with the ordered, type-normalized column list; each type-keyword
family lexes to its type token, and every successful `consume_type`
returns the canonical name of the current token's type family. -/
theorem C6_create :
    parseSQL "CREATE TABLE t (a INT, b TEXT);" =
      .ok [.create "t" [("a", "INTEGER"), ("b", "TEXT")] false] ∧
    (Lexer.next "BOOL".toList = .ok (.boolType, []) ∧
      Lexer.next "BOOLEAN".toList = .ok (.boolType, []) ∧
      Lexer.next "INT".toList = .ok (.intType, []) ∧
      Lexer.next "INTEGER".toList = .ok (.intType, []) ∧
      Lexer.next "FLOAT".toList = .ok (.floatType, []) ∧
      Lexer.next "DOUBLE".toList = .ok (.floatType, []) ∧
      Lexer.next "TEXT".toList = .ok (.textType, []) ∧
      Lexer.next "STRING".toList = .ok (.textType, []) ∧
      Lexer.next "VARCHAR".toList = .ok (.textType, [])) ∧
    ∀ st s st', consumeType st = .ok (s, st') →
      (st.curr = .boolType ∧ s = "BOOLEAN") ∨ (st.curr = .intType ∧ s = "INTEGER") ∨
      (st.curr = .floatType ∧ s = "FLOAT") ∨ (st.curr = .textType ∧ s = "TEXT") := by
  refine ⟨by rfl,
    ⟨by rfl, by rfl, by rfl, by rfl, by rfl, by rfl, by rfl,
     by rfl, by rfl⟩, ?_⟩
  intro st s st' h
  cases hl : Lexer.next st.lexer with
  | error e => simp [consumeType, pnext, hl] at h
  | ok p =>
    obtain ⟨tk, lx⟩ := p
    simp only [consumeType, pnext, hl] at h
    cases hc : st.curr <;> simp only [hc] at h <;>
      first
        | (simp at h; done)
        | (simp only [Except.ok.injEq, Prod.mk.injEq] at h
           simp [h.1.symm])

/-- Witness for the C6 theorem's `consume_type` part at a concrete parser
state holding the INTEGER type token. -/
theorem C6_create_witness :
    (Token.intType = Token.boolType ∧ "INTEGER" = "BOOLEAN") ∨
    (Token.intType = Token.intType ∧ "INTEGER" = "INTEGER") ∨
    (Token.intType = Token.floatType ∧ "INTEGER" = "FLOAT") ∨
    (Token.intType = Token.textType ∧ "INTEGER" = "TEXT") :=
  C6_create.2.2 ⟨[], .intType, .eof⟩ "INTEGER" ⟨[], .eof, .eof⟩ (by rfl)

/-- Claim C7: backslash escapes in quoted text — `\x27it\\\x27s\x27` lexes
to Text `it\x27s`; the unknown escape in `\x27a\\qb\x27` is preserved as
backslash plus `q`; and one literal exercising all six recognized escapes
produces the escaped characters. -/
theorem C7_escapes :
    Lexer.next "\x27it\\\x27s\x27".toList = .ok (.text "it\x27s", []) ∧
    Lexer.next "\x27a\\qb\x27".toList = .ok (.text "a\\qb", []) ∧
    Lexer.next "\x27a\\\\b\\\x27c\\\"d\\ne\\rf\\tg\x27".toList =
      .ok (.text "a\\b\x27c\"d\ne\rf\tg", []) :=
  ⟨by rfl, by rfl, by rfl⟩

/-- One-step unfolding of `lexText` on a non-empty queue. -/
theorem lexText_cons (quote c : Char) (out : String) (rest : List Char) :
    lexText quote out (c :: rest) =
      if c = quote then .ok (.text out, rest)
      else if c = '\\' then
        match rest with
        | [] => .error .unterminatedText
        | esc :: rest' =>
          lexText quote
            (if esc = '\\' then out.push '\\'
             else if esc = '\'' then out.push '\''
             else if esc = '"' then out.push '"'
             else if esc = 'n' then out.push '\n'
             else if esc = 'r' then out.push '\r'
             else if esc = 't' then out.push '\t'
             else (out.push c).push esc) rest'
      else lexText quote (out.push c) rest := by
  rw [lexText.eq_def]

/-- Claim C8: an unterminated quoted literal fails with the
unterminated-literal error — `\x27abc` does, and in general `lex_text`
can fail with no error other than the unterminated-literal one (in
particular never with end-of-input). -/
theorem C8_unterminated :
    Lexer.next "\x27abc".toList = .error .unterminatedText ∧
    ∀ quote out src e, lexText quote out src = .error e → e = .unterminatedText := by
  refine ⟨by rfl, ?_⟩
  intro quote out src e h
  suffices H : ∀ n (src : List Char) (out : String) (e : QueryErr),
      src.length ≤ n → lexText quote out src = .error e → e = .unterminatedText from
    H src.length src out e le_rfl h
  intro n
  induction n with
  | zero =>
    intro src out e hlen h
    cases src with
    | nil =>
      simp only [lexText, Except.error.injEq] at h
      exact h.symm
    | cons c rest => simp at hlen
  | succ n ih =>
    intro src out e hlen h
    cases src with
    | nil =>
      simp only [lexText, Except.error.injEq] at h
      exact h.symm
    | cons c rest =>
      rw [lexText_cons] at h
      split at h
      · simp at h
      · split at h
        · split at h
          · simp only [Except.error.injEq] at h
            exact h.symm
          · rename_i esc rest'
            exact ih rest' _ e (by simp only [List.length_cons] at hlen; omega) h
        · exact ih rest _ e (by simp only [List.length_cons] at hlen; omega) h

/-- Witness for the unterminated-literal theorem at the empty remainder of
a just-opened double-quoted literal. -/
theorem C8_unterminated_witness : QueryErr.unterminatedText = .unterminatedText :=
  C8_unterminated.2 '"' "" [] .unterminatedText (by rfl)

/-- Claim C9: once the source is exhausted, every further `next` call
yields the end marker (and again the exhausted state), for any number of
calls — never an error. -/
theorem C9_eof_repeats (n : ℕ) : lexIterate n [] = .ok (.eof, []) := by
  induction n with
  | zero => rfl
  | succ n ih =>
    have h : Lexer.next ([] : List Char) = .ok (.eof, []) := by rfl
    simpa [lexIterate, h] using ih

/-- Claim C10: chains of equal binding power associate to the left, at
every precedence level — the earlier operator's node becomes the left
child of the later operator's node. -/
theorem C10_left_assoc :
    parseExprSQL "1 - 2 - 3" =
      .ok (.binary .opSub (.binary .opSub (.int 1) (.int 2)) (.int 3)) ∧
    parseExprSQL "1 OR 2 OR 3" =
      .ok (.binary .or (.binary .or (.int 1) (.int 2)) (.int 3)) ∧
    parseExprSQL "1 AND 2 AND 3" =
      .ok (.binary .and (.binary .and (.int 1) (.int 2)) (.int 3)) ∧
    parseExprSQL "1 = 2 = 3" =
      .ok (.binary .opEq (.binary .opEq (.int 1) (.int 2)) (.int 3)) ∧
    parseExprSQL "1 > 2 < 3" =
      .ok (.binary .opLt (.binary .opGt (.int 1) (.int 2)) (.int 3)) ∧
    parseExprSQL "1 >= 2 <= 3" =
      .ok (.binary .opLe (.binary .opGe (.int 1) (.int 2)) (.int 3)) ∧
    parseExprSQL "1 + 2 - 3" =
      .ok (.binary .opSub (.binary .opAdd (.int 1) (.int 2)) (.int 3)) ∧
    parseExprSQL "1 * 2 / 3" =
      .ok (.binary .opDiv (.binary .opMul (.int 1) (.int 2)) (.int 3)) :=
  ⟨by rfl, by rfl, by rfl, by rfl, by rfl, by rfl, by rfl,
   by rfl⟩

end Team4

